import Mathlib

/-
Shallow embedding of the core of `src/include/Remodel.hpp` (the remodel
library): pointer getters, class wrappers, fields, member functions, weak
wrappers and the module root.

Modelling conventions:
- A raw address (`void*` / `uintptr_t`) is a `Nat`; the null pointer is `0`;
  the address space is `2^64` (the static assert at Remodel.hpp:53 requires
  code and data pointers to have equal width, we fix that width at 64 bits).
- Target memory is a byte store `Mem := Nat → Nat`; a byte read truncates
  to 8 bits. Pointer-sized loads and stores are little-endian over
  `ptrSize = 8` bytes, mirroring `*reinterpret_cast<uintptr_t*>(p)`.
- `std::function<void*(void*)>` (FieldBase::PtrGetter, Remodel.hpp:545) is a
  Lean function; since a getter may read target memory (VfTableGetter), the
  memory is passed explicitly.
-/

namespace remodel

/-- Memory of the target address space: a byte per address. -/
def Mem : Type := Nat → Nat

/-- A raw address (`void*` or `uintptr_t` in the source). -/
abbrev Addr := Nat

/-- Width of the address space: the static assert at Remodel.hpp:53 equates
code- and data-pointer width; we model a 64-bit target. -/
def addrSpace : Nat := 2 ^ 64

/-- `sizeof(uintptr_t)` on the modelled target. -/
def ptrSize : Nat := 8

/-- The byte stored at address `a` (reads truncate to 8 bits). -/
def byteAt (mem : Mem) (a : Addr) : Nat := mem a % 256

/-- Little-endian load of `w` bytes starting at `a`. -/
def loadLE : Nat → Addr → Mem → Nat
  | 0, _, _ => 0
  | w + 1, a, mem => byteAt mem a + 256 * loadLE w (a + 1) mem

/-- Point update of a byte store. -/
def update (mem : Mem) (a : Addr) (v : Nat) : Mem :=
  fun x => if x = a then v else mem x

/-- Little-endian store of the low `w` bytes of `v` starting at `a`. -/
def storeLE : Nat → Addr → Nat → Mem → Mem
  | 0, _, _, mem => mem
  | w + 1, a, v, mem => storeLE w (a + 1) (v / 256) (update mem a (v % 256))

theorem storeLE_lt_outside (w : Nat) :
    ∀ (a : Addr) (v : Nat) (mem : Mem) (y : Addr), y < a → storeLE w a v mem y = mem y := by
  induction w with
  | zero => intro a v mem y _; rfl
  | succ w ih =>
    intro a v mem y hy
    show storeLE w (a + 1) (v / 256) (update mem a (v % 256)) y = mem y
    rw [ih (a + 1) (v / 256) _ y (Nat.lt_succ_of_lt hy)]
    simp only [update]
    rw [if_neg (Nat.ne_of_lt hy)]

/-- Loading back the bytes just stored yields the value reduced mod `256^w`. -/
theorem loadLE_storeLE_same (w : Nat) :
    ∀ (a : Addr) (v : Nat) (mem : Mem), loadLE w a (storeLE w a v mem) = v % 256 ^ w := by
  induction w with
  | zero => intro a v mem; simp [loadLE, Nat.mod_one]
  | succ w ih =>
    intro a v mem
    show byteAt (storeLE w (a + 1) (v / 256) (update mem a (v % 256))) a + 256 *
        loadLE w (a + 1) (storeLE w (a + 1) (v / 256) (update mem a (v % 256))) = v % 256 ^ (w + 1)
    rw [ih (a + 1) (v / 256) _]
    have hb : byteAt (storeLE w (a + 1) (v / 256) (update mem a (v % 256))) a = v % 256 := by
      unfold byteAt
      rw [storeLE_lt_outside w (a + 1) (v / 256) _ a (Nat.lt_succ_self a)]
      simp [update, Nat.mod_mod_of_dvd]
    rw [hb]
    have hpow : (256 : Nat) ^ (w + 1) = 256 * 256 ^ w := by
      rw [pow_succ, Nat.mul_comm]
    rw [hpow, Nat.mod_mul]

/-- A `w`-byte load is always below `256^w`. -/
theorem loadLE_lt (w : Nat) : ∀ (a : Addr) (mem : Mem), loadLE w a mem < 256 ^ w := by
  induction w with
  | zero => intro a mem; simp [loadLE]
  | succ w ih =>
    intro a mem
    show byteAt mem a + 256 * loadLE w (a + 1) mem < 256 ^ (w + 1)
    have h1 : byteAt mem a < 256 := Nat.mod_lt _ (by decide)
    have h2 : loadLE w (a + 1) mem + 1 ≤ 256 ^ w := Nat.succ_le_of_lt (ih (a + 1) mem)
    have h3 : 256 * (loadLE w (a + 1) mem + 1) ≤ 256 * 256 ^ w :=
      Nat.mul_le_mul_left 256 h2
    have hpow : (256 : Nat) ^ (w + 1) = 256 * 256 ^ w := by
      rw [pow_succ, Nat.mul_comm]
    rw [hpow]
    omega

/-- OffsGetter (Remodel.hpp:360-380): stores a `std::ptrdiff_t` displacement. -/
structure OffsGetter where
  m_offs : Int

/-- `OffsGetter::operator()` (Remodel.hpp:374-379): casts the raw pointer to
`uintptr_t`, adds the displacement (wrapping in the 64-bit address space) and
casts back. The operator writes no member, which we expose by returning the
getter state unchanged alongside the result. -/
def OffsGetter.call (g : OffsGetter) (raw : Addr) : Addr × OffsGetter :=
  ((((raw : Int) + g.m_offs) % ((2 : Int) ^ 64)).toNat, g)

/-- AbsGetter (Remodel.hpp:389-414): stores a fixed pointer. -/
structure AbsGetter where
  m_ptr : Addr

/-- `AbsGetter::operator()` (Remodel.hpp:410-413): ignores the raw pointer. -/
def AbsGetter.call (g : AbsGetter) : Addr → Addr :=
  fun _ => g.m_ptr

/-- VfTableGetter (Remodel.hpp:423-449): vftable slot index and the offset of
the vftable pointer inside the object. -/
structure VfTableGetter where
  m_vftableIdx : Nat
  m_vftableOffset : Nat

/-- `VfTableGetter::operator()` (Remodel.hpp:438-448): reads the pointer-sized
vftable pointer at `raw + m_vftableOffset`, then reads the pointer-sized slot
at `vftable + m_vftableIdx * sizeof(uintptr_t)`. All address arithmetic is
`uintptr_t` arithmetic, hence mod `2^64`. -/
def VfTableGetter.call (g : VfTableGetter) (mem : Mem) (raw : Addr) : Addr :=
  loadLE ptrSize
    ((loadLE ptrSize ((raw + g.m_vftableOffset) % addrSpace) mem
        + g.m_vftableIdx * ptrSize) % addrSpace)
    mem

/-- The `FieldBase::PtrGetter` type (Remodel.hpp:545), a
`std::function<void*(void*)>`; memory passed explicitly since a getter may
read it. -/
def PtrGetter : Type := Mem → Addr → Addr

/-- An OffsGetter stored into a `PtrGetter` slot. -/
def OffsGetter.toPtrGetter (g : OffsGetter) : PtrGetter :=
  fun _ raw => (g.call raw).1

/-- An AbsGetter stored into a `PtrGetter` slot. -/
def AbsGetter.toPtrGetter (g : AbsGetter) : PtrGetter :=
  fun _ raw => g.call raw

/-- A VfTableGetter stored into a `PtrGetter` slot. -/
def VfTableGetter.toPtrGetter (g : VfTableGetter) : PtrGetter :=
  fun mem raw => g.call mem raw

/-- ClassWrapper (Remodel.hpp:66-125): stores only the raw pointer of the
wrapped object, `void* m_raw`. -/
structure ClassWrapper where
  m_raw : Addr

/-- `ClassWrapper::addressOfObj` (Remodel.hpp:116): returns `m_raw`. -/
def ClassWrapper.addressOfObj (w : ClassWrapper) : Addr := w.m_raw

/-- `wrapper_cast<WrapperT>(void*)` (Remodel.hpp:299-304): constructs the
wrapper directly from the raw pointer, with no validation or adjustment. -/
def wrapper_cast (raw : Addr) : ClassWrapper := ⟨raw⟩

/-- `ClassWrapper`'s copy constructor (Remodel.hpp:90-92): copies `m_raw`.
Target memory is threaded through to make explicit that the source performs
no load or store of the wrapped object's bytes. -/
def ClassWrapper.copyCtor (other : ClassWrapper) (mem : Mem) : ClassWrapper × Mem :=
  (⟨other.m_raw⟩, mem)

/-- `ClassWrapper::operator=` (Remodel.hpp:99-103): assigns `m_raw` only. -/
def ClassWrapper.assign (self other : ClassWrapper) (mem : Mem) : ClassWrapper × Mem :=
  (⟨other.m_raw⟩, mem)

/-- AdvancedClassWrapper (Remodel.hpp:223-244): a ClassWrapper plus the
compile-time object size `kObjSize = objSizeT`. -/
structure AdvancedClassWrapper (objSizeT : Nat) where
  m_raw : Addr

/-- `AdvancedClassWrapper`'s copy constructor (Remodel.hpp:235-237): delegates
to the ClassWrapper copy constructor, hence copies `m_raw` only. -/
def AdvancedClassWrapper.copyCtor {S : Nat} (other : AdvancedClassWrapper S) (mem : Mem) :
    AdvancedClassWrapper S × Mem :=
  (⟨(ClassWrapper.copyCtor ⟨other.m_raw⟩ mem).1.m_raw⟩, mem)

/-- `AdvancedClassWrapper::operator=` (Remodel.hpp:239-243): delegates to
`ClassWrapper::operator=`. -/
def AdvancedClassWrapper.assign {S : Nat} (self other : AdvancedClassWrapper S) (mem : Mem) :
    AdvancedClassWrapper S × Mem :=
  (⟨(ClassWrapper.assign ⟨self.m_raw⟩ ⟨other.m_raw⟩ mem).1.m_raw⟩, mem)

/-- `sizeof(WeakWrapper<W>)`: `WeakWrapperImpl` (Remodel.hpp:480-501) is
declared under `#pragma pack(push, 1)` and its only data member is
`uint8_t m_dummy[WrapperT::kObjSize]`, so its size is
`kObjSize * sizeof(uint8_t)` (confirmed by the static asserts at
Remodel.hpp:519-522). -/
def weakWrapperSize (kObjSize : Nat) : Nat := kObjSize * 1

/-- A WeakWrapper value (Remodel.hpp:515-516), identified by its own address:
unlike a ClassWrapper it stores no separate pointer member — the object it
represents lives at the weak wrapper's own address. -/
structure WeakWrapper where
  selfAddr : Addr

/-- `WeakWrapperImpl::raw` (Remodel.hpp:494): returns `this`. -/
def WeakWrapper.raw (w : WeakWrapper) : Addr := w.selfAddr

/-- `WeakWrapperImpl::toStrong` (Remodel.hpp:500):
`wrapper_cast<WrapperT>(this)`. -/
def WeakWrapper.toStrong (w : WeakWrapper) : ClassWrapper :=
  wrapper_cast w.selfAddr

/-- FieldBase (Remodel.hpp:539-614): a parent wrapper pointer (possibly null)
and a PtrGetter. The parent is modelled by the pointed-to wrapper value. -/
structure Field where
  m_parent : Option ClassWrapper
  m_ptrGetter : PtrGetter

/-- `FieldBase::rawPtr` (Remodel.hpp:593-596): applies the getter to
`m_parent ? m_parent->m_raw : nullptr`. -/
def Field.rawPtr (f : Field) (mem : Mem) : Addr :=
  f.m_ptrGetter mem (match f.m_parent with
    | some p => p.m_raw
    | none => 0)

/-- `Field<T>::operator=(const Field&)` (Remodel.hpp:940-943) for an
arithmetic `T` of byte width `w`: `this->valueRef() = rhs.valueCRef()`, i.e.
stores at the left field's computed address the value loaded at the right
field's computed address. The operator writes none of the left field's own
members, which we expose by returning the left field alongside the new
memory. -/
def Field.assignField (w : Nat) (a b : Field) (mem : Mem) : Mem × Field :=
  (storeLE w (a.rawPtr mem) (loadLE w (b.rawPtr mem) mem) mem, a)

/-- `Field<T>::operator=(const RewrittenT&)` (Remodel.hpp:950-953) for an
arithmetic `T` of byte width `w`: `this->valueRef() = rhs`. -/
def Field.assignValue (w : Nat) (f : Field) (v : Nat) (mem : Mem) : Mem :=
  storeLE w (f.rawPtr mem) v mem

/-- Reading a Field of arithmetic `T` (the implicit conversion
`operator RewrittenT&` at Remodel.hpp:927 followed by an lvalue-to-rvalue
conversion): loads `w` bytes at the computed address. -/
def Field.read (w : Nat) (f : Field) (mem : Mem) : Nat :=
  loadLE w (f.rawPtr mem) mem

/-- MemberFunctionImpl (Remodel.hpp:1107-1128): a FieldBase holding the parent
wrapper and the PtrGetter of the wrapped member function. -/
structure MemberFunction where
  m_parent : Option ClassWrapper
  m_ptrGetter : PtrGetter

/-- `FieldBase::rawPtr` as inherited by MemberFunctionImpl. -/
def MemberFunction.rawPtr (mf : MemberFunction) (mem : Mem) : Addr :=
  mf.m_ptrGetter mem (match mf.m_parent with
    | some p => p.m_raw
    | none => 0)

/-- `MemberFunctionImpl::operator()` (Remodel.hpp:1124-1127):
`get()(addressOfObj(*this->m_parent), args...)` — calls the code at
`rawPtr()` passing the parent's object address as the implicit first
argument. The code environment `env` maps a code address to the function's
behaviour on its argument list. A null `m_parent` would be dereferenced,
which is undefined; the model returns `none` there. -/
def MemberFunction.call (env : Addr → List Nat → Nat) (mf : MemberFunction)
    (mem : Mem) (args : List Nat) : Option Nat :=
  match mf.m_parent with
  | none => none
  | some p => some (env (mf.rawPtr mem) (p.addressOfObj :: args))

/-- `Module::getModule` (Remodel.hpp:1256-1261): queries
`platform::obtainModuleHandle(moduleName)`; if the handle is null returns an
empty Optional, otherwise `wrapper_cast<Module>(modulePtr)`.

Modelled from the spec: `platform::obtainModuleHandle` (declared in
Platform.hpp, which is not part of the sources here) is the external
module-resolution service — `resolve(name) -> optional(RawAddress)` per
spec section 6 — encoded C-style as a function returning the module's base
address, or the null pointer `0` when no module of that name is found. It is
passed as the parameter `resolve`. -/
def Module.getModule (resolve : String → Addr) (moduleName : String) :
    Option ClassWrapper :=
  if resolve moduleName = 0 then none
  else some (wrapper_cast (resolve moduleName))

/-- Concrete memory for exercising the vftable getter: the vtable pointer at
address 0 holds 100, and the table at 100 holds the slots 7 (index 0) and 9
(index 1). -/
def memVft : Mem := fun a =>
  if a = 0 then 100 else if a = 100 then 7 else if a = 108 then 9 else 0

/-- Claim C1: `VfTableGetter(i, vo)` applied to `objAddr` returns the value
read at `vtable + i * ptrSize`, where `vtable` is the pointer-sized value
read at `objAddr + vo`; in particular, for an object whose slot at offset
`vo` points to a table of `N` pointer-sized slots, the result is the i-th
table entry for every `i < N`. -/
theorem C1_vftable_getter_reads_slot (idx vo : Nat) (mem : Mem) (objAddr t : Addr)
    (table : List Nat) (hidx : idx < table.length)
    (hvp : loadLE ptrSize ((objAddr + vo) % addrSpace) mem = t)
    (htab : ∀ j, j < table.length →
      loadLE ptrSize ((t + j * ptrSize) % addrSpace) mem = table.getD j 0) :
    (VfTableGetter.mk idx vo).call mem objAddr = table.getD idx 0 := by
  unfold VfTableGetter.call
  rw [hvp]
  exact htab idx hidx

/-- Witness for C1 on `memVft`: slot 1 at vftable offset 0 of the object at
address 0 resolves to the second table entry, 9. -/
theorem C1_vftable_getter_reads_slot_witness :
    (VfTableGetter.mk 1 0).call memVft 0 = ([7, 9] : List Nat).getD 1 0 :=
  C1_vftable_getter_reads_slot 1 0 memVft 0 100 [7, 9] (by decide) (by decide) (by decide)

/-- Claim C2: for two Fields of the same arithmetic type of width `w`,
`fieldA = fieldB` stores fieldB's value at the address fieldA computes — the
memory fieldA addresses afterwards equals fieldB's value — and leaves
fieldA's own binding (parent and PtrGetter) unchanged. -/
theorem C2_field_assign_copies_value_not_binding (w : Nat) (a b : Field) (mem : Mem) :
    loadLE w (a.rawPtr mem) (Field.assignField w a b mem).1
        = loadLE w (b.rawPtr mem) mem
      ∧ (Field.assignField w a b mem).2.m_parent = a.m_parent
      ∧ (Field.assignField w a b mem).2.m_ptrGetter = a.m_ptrGetter := by
  refine ⟨?_, rfl, rfl⟩
  show loadLE w (a.rawPtr mem) (storeLE w (a.rawPtr mem) (loadLE w (b.rawPtr mem) mem) mem)
      = loadLE w (b.rawPtr mem) mem
  rw [loadLE_storeLE_same]
  exact Nat.mod_eq_of_lt (loadLE_lt w _ mem)

/-- Claim C3: `wrapper_cast<T>(p)` for non-null `p` yields a wrapper whose
`addressOfObj()` is `p`; the address is stored unmodified, unvalidated. -/
theorem C3_wrapper_cast_identity (p : Addr) (hp : p ≠ 0) :
    (wrapper_cast p).addressOfObj = p ∧ (wrapper_cast p).m_raw = p :=
  ⟨rfl, rfl⟩

/-- Witness for C3 at the concrete non-null address 4. -/
theorem C3_wrapper_cast_identity_witness :
    (wrapper_cast 4).addressOfObj = 4 ∧ (wrapper_cast 4).m_raw = 4 :=
  C3_wrapper_cast_identity 4 (by decide)

/-- Claim C4: a weak wrapper for a type of declared size `S` has size exactly
`S`; its `raw()` is its own address (the address of the object it
represents); and `toStrong()` yields a wrapper whose `addressOfObj()` equals
the weak wrapper's own address. -/
theorem C4_weak_wrapper_size_and_identity (S : Nat) (w : WeakWrapper) :
    weakWrapperSize S = S
      ∧ w.raw = w.selfAddr
      ∧ (w.toStrong).addressOfObj = w.raw := by
  exact ⟨Nat.mul_one S, rfl, rfl⟩

/-- Claim C5: for an arithmetic type of byte width `w`, writing a value `v`
(representable in `w` bytes) through a Field and reading the Field back
yields exactly `v`, provided the write leaves the Field's computed target
address unchanged (true of any getter that does not read the bytes it
writes, e.g. Offset and Absolute getters). -/
theorem C5_field_write_read_roundtrip (w : Nat) (f : Field) (v : Nat) (mem : Mem)
    (hv : v < 256 ^ w)
    (haddr : f.rawPtr (Field.assignValue w f v mem) = f.rawPtr mem) :
    Field.read w f (Field.assignValue w f v mem) = v := by
  unfold Field.read
  rw [haddr]
  show loadLE w (f.rawPtr mem) (storeLE w (f.rawPtr mem) v mem) = v
  rw [loadLE_storeLE_same]
  exact Nat.mod_eq_of_lt hv

/-- Witness for C5: a 2-byte field at absolute address 10 over zeroed memory
round-trips the value 300. -/
theorem C5_field_write_read_roundtrip_witness :
    Field.read 2 (Field.mk none (AbsGetter.mk 10).toPtrGetter)
      (Field.assignValue 2 (Field.mk none (AbsGetter.mk 10).toPtrGetter) 300 (fun _ => 0))
      = 300 :=
  C5_field_write_read_roundtrip 2 (Field.mk none (AbsGetter.mk 10).toPtrGetter) 300
    (fun _ => 0) (by decide) rfl

/-- Claim C6: `OffsGetter(d)` applied to `base` returns `base + d` — computed
in the 64-bit address space, hence equal to the mathematical sum whenever
that sum lies in range — and the call leaves the getter's state unchanged,
so the result is independent of how many times the getter is called. -/
theorem C6_offs_getter_adds_displacement (d : Int) (base : Addr) :
    ((OffsGetter.mk d).call base).2 = OffsGetter.mk d
      ∧ ((OffsGetter.mk d).call base).1 = (((base : Int) + d) % ((2 : Int) ^ 64)).toNat
      ∧ (0 ≤ (base : Int) + d → (base : Int) + d < (2 : Int) ^ 64 →
          (((OffsGetter.mk d).call base).1 : Int) = (base : Int) + d) := by
  refine ⟨rfl, rfl, fun h1 h2 => ?_⟩
  show (((((base : Int) + d) % ((2 : Int) ^ 64)).toNat : Nat) : Int) = (base : Int) + d
  rw [Int.emod_eq_of_lt h1 h2]
  exact Int.toNat_of_nonneg h1

/-- Witness for C6 at base 3 and displacement 5. -/
theorem C6_offs_getter_adds_displacement_witness :
    ((((OffsGetter.mk 5).call 3).1 : Nat) : Int) = (3 : Int) + 5 :=
  (C6_offs_getter_adds_displacement 5 3).2.2 (by decide) (by decide)

/-- Claim C7: invoking a MemberFunction bound to parent `p` and getter `g`
with arguments `args` calls the function located at `g` applied to the
parent's object address, passing that object address as the implicit first
argument before `args`, and returns that call's result. -/
theorem C7_member_function_passes_this (env : Addr → List Nat → Nat)
    (p : ClassWrapper) (g : PtrGetter) (mem : Mem) (args : List Nat) :
    MemberFunction.call env (MemberFunction.mk (some p) g) mem args
      = some (env (g mem p.addressOfObj) (p.addressOfObj :: args)) :=
  rfl

/-- Claim C8: `Module::getModule(name)` is empty exactly when the external
module-resolution service finds no module of that name (returns the null
handle); when the service returns a base address `B`, the result is a
wrapper whose `addressOfObj()` equals `B`. -/
theorem C8_module_resolution (resolve : String → Addr) (name : String) :
    (Module.getModule resolve name = none ↔ resolve name = 0)
      ∧ (∀ B, B ≠ 0 → resolve name = B →
          ∃ m, Module.getModule resolve name = some m ∧ m.addressOfObj = B) := by
  constructor
  · unfold Module.getModule
    by_cases h : resolve name = 0
    · simp [h]
    · simp [h]
  · intro B hB hres
    refine ⟨wrapper_cast B, ?_, rfl⟩
    unfold Module.getModule
    rw [hres, if_neg hB]

/-- Witness for C8: a service resolving every name to base 42 yields a
module wrapper at 42. -/
theorem C8_module_resolution_witness :
    ∃ m, Module.getModule (fun _ => 42) "m" = some m ∧ m.addressOfObj = 42 :=
  (C8_module_resolution (fun _ => 42) "m").2 42 (by decide) rfl

/-- Claim C9: copy construction and assignment of wrappers (plain and
advanced) copy only the stored address — afterwards the copy's
`addressOfObj()` equals the source's — and leave the target memory
untouched. -/
theorem C9_wrapper_copy_is_shallow (a b : ClassWrapper) (mem : Mem) (S : Nat)
    (a2 b2 : AdvancedClassWrapper S) :
    (ClassWrapper.copyCtor b mem).1.addressOfObj = b.addressOfObj
      ∧ (ClassWrapper.copyCtor b mem).2 = mem
      ∧ (ClassWrapper.assign a b mem).1.addressOfObj = b.addressOfObj
      ∧ (ClassWrapper.assign a b mem).2 = mem
      ∧ (AdvancedClassWrapper.copyCtor b2 mem).1.m_raw = b2.m_raw
      ∧ (AdvancedClassWrapper.copyCtor b2 mem).2 = mem
      ∧ (AdvancedClassWrapper.assign a2 b2 mem).1.m_raw = b2.m_raw
      ∧ (AdvancedClassWrapper.assign a2 b2 mem).2 = mem :=
  ⟨rfl, rfl, rfl, rfl, rfl, rfl, rfl, rfl⟩

/-- Claim C10: the unchecked cast is also well defined at the null address:
`wrapper_cast(null).addressOfObj()` is null — neither the cast nor the
accessor checks or dereferences the address. -/
theorem C10_wrapper_cast_null :
    (wrapper_cast 0).addressOfObj = 0 :=
  rfl

end remodel
